import Mathlib

/-!
# simux: a line-oriented TCP client

A shallow embedding of `simux.c`.  Bytes are natural numbers below 256.  A C
string is given by the list of bytes stored at its address; the list is
followed by a terminating NUL, so a string ends at the first `0` in the list or,
when there is none, at the end of the list.  The data model is LP64: `int` has
32 bits, `long`, `size_t` and pointers have 64 bits, `unsigned short` has 16.

The two threads are interleaved at the grain of one pass of either loop.  What
the operating system answers in a pass (the result of `select`, `read`, `send`,
`recv`, `write` and `malloc`) is an input of the pass.
The pipe carries pointers; the model queues the strings they point to, which are
owned by whoever holds the pointer.  The lines in the pipe are those `readline`
returns.  The readline history has no bearing on the pipe, the Connection or the
log and is left out.

The library functions (`strlen`, `strlcpy`, `strlcat`, `strncmp`, `strtol`,
`printf` with `%d`) are modelled after their manual pages.
-/

namespace Simux

/-! ## C strings and the libc string functions used by the program -/

/-- Bytes of a string literal. -/
def bytes (s : String) : List Nat := s.toList.map Char.toNat

/-- The characters of the C string stored in `s`: everything before the first NUL. -/
def cstr (s : List Nat) : List Nat := s.takeWhile (fun b => b != 0)

/-- The libc `strlen`: number of bytes before the first NUL. -/
def strlen (s : List Nat) : Nat := (cstr s).length

/-- Largest `int`. -/
def INT_MAX : Nat := 2 ^ 31 - 1

/-- What `readline` returns for a line of input: the text of the line, without the
newline.  The library counts the characters of the line in the `int` `rl_end`. -/
structure Line where
  text : List Nat
  counted : text.length ≤ INT_MAX

/-- Conversion of a `size_t` value to `int` (two's complement, 32 bits). -/
def to_int (n : Nat) : Int :=
  if n % 2 ^ 32 < 2 ^ 31 then ((n % 2 ^ 32 : Nat) : Int) else ((n % 2 ^ 32 : Nat) : Int) - 2 ^ 32

/-- Conversion of an `int` to `size_t` (64 bits). -/
def to_size_t (i : Int) : Nat := (i % 2 ^ 64).toNat

/-- Largest object size any allocator can serve. -/
def PTRDIFF_MAX : Nat := 2 ^ 63 - 1

/-- The libc `malloc`: `none` is the NULL pointer.  A request no allocator can
serve gets NULL; for any other request the allocator answers as it pleases, with
NULL (`answer` is `none`) or with a block of `size` bytes holding whatever was
there before (the block is not initialised). -/
def malloc (size : Nat) (answer : Option (Nat → Nat)) : Option (List Nat) :=
  if PTRDIFF_MAX < size then none
  else
    match answer with
    | none => none
    | some stale => some ((List.range size).map stale)

/-- The libc `strlcpy(dst, src, dsize)`: copies at most `dsize - 1` characters of
`src` to the start of `dst` and NUL-terminates when `dsize` is not 0.  The value
is the new content of `dst`. -/
def strlcpy (dst src : List Nat) (dsize : Nat) : List Nat :=
  if dsize = 0 then dst
  else
    let copied := (cstr src).take (dsize - 1)
    copied ++ 0 :: dst.drop (copied.length + 1)

/-- The libc `strlcat(dst, src, dsize)`: finds the end of the string in `dst`
without looking past `dsize` bytes, appends as many characters of `src` as leave
room for the terminator, and NUL-terminates; `dst` is left alone when it holds no
NUL within `dsize` bytes.  The value is the new content of `dst`. -/
def strlcat (dst src : List Nat) (dsize : Nat) : List Nat :=
  let dlen := strlen (dst.take dsize)
  if dsize - dlen = 0 then dst
  else
    let added := (cstr src).take (dsize - dlen - 1)
    dst.take dlen ++ added ++ 0 :: dst.drop (dlen + added.length + 1)

/-- The value of `full_length_with_line_termination`: `strlen(command)+2` is
computed in `size_t` and stored in a `const int`. -/
def full_length_with_line_termination (command : List Nat) : Int :=
  to_int ((strlen command + 2) % 2 ^ 64)

/-- The buffer `command_with_lineending` as it stands when `send` is called
(lines 168 to 171): `none` when the program faults, because `malloc` returned NULL
and `strlcpy` writes through it. -/
def command_with_lineending (command : List Nat) (answer : Option (Nat → Nat)) :
    Option (List Nat) :=
  let size := to_size_t (full_length_with_line_termination command)
  match malloc size answer with
  | none => none
  | some block => some (strlcat (strlcpy block command size) (bytes "\n") size)

/-- The bytes handed to `send` on line 172: the first `strlen(command_with_lineending)`
bytes of the buffer.  `none` when the program faults: the allocation failed, or the
block holds no NUL and `strlen` runs past its end. -/
def send_payload (command : List Nat) (answer : Option (Nat → Nat)) : Option (List Nat) :=
  match command_with_lineending command answer with
  | none => none
  | some buf => if 0 ∈ buf then some (buf.take (strlen buf)) else none

/-- The libc `strncmp(s1, s2, n)`: compares at most `n` characters and stops at a
NUL; the value is 0 exactly when no difference was seen. -/
def strncmp : List Nat → List Nat → Nat → Int
  | _, _, 0 => 0
  | s1, s2, n + 1 =>
    if s1.headD 0 ≠ s2.headD 0 then (s1.headD 0 : Int) - (s2.headD 0 : Int)
    else if s1.headD 0 = 0 then 0
    else strncmp s1.tail s2.tail n

/-- The libc `isspace` in the C locale. -/
def isspace (c : Nat) : Bool := decide (c = 32 ∨ (9 ≤ c ∧ c ≤ 13))

/-- The libc `isdigit`. -/
def isdigit (c : Nat) : Bool := decide (48 ≤ c ∧ c ≤ 57)

/-- Largest `long`. -/
def LONG_MAX : Int := 2 ^ 63 - 1

/-- Smallest `long`. -/
def LONG_MIN : Int := -(2 ^ 63)

/-- Value of the leading run of decimal digits of `s`. -/
def digits_value (s : List Nat) : Nat :=
  (s.takeWhile isdigit).foldl (fun acc c => acc * 10 + (c - 48)) 0

/-- The libc `strtol(nptr, NULL, 10)`: skips white space, reads an optional sign
and the decimal digits that follow, and clamps the value to the range of `long`. -/
def strtol (nptr : List Nat) : Int :=
  match (cstr nptr).dropWhile isspace with
  | 45 :: rest => max LONG_MIN (-(digits_value rest : Int))
  | 43 :: rest => min LONG_MAX (digits_value rest : Int)
  | rest => min LONG_MAX (digits_value rest : Int)

/-- Conversion of a `long` to `unsigned short`. -/
def to_unsigned_short (v : Int) : Nat := (v % 2 ^ 16).toNat

/-- The decimal numeral of a natural number, most significant digit first,
without leading zeros. -/
def decimal (n : Nat) : List Nat :=
  if n < 10 then [48 + n] else decimal (n / 10) ++ [48 + n % 10]
decreasing_by omega

/-- What `printf` writes for `%d`. -/
def format_d (i : Int) : List Nat :=
  if i < 0 then 45 :: decimal i.natAbs else decimal i.toNat

/-! ## Session bootstrap -/

/-- Operations on the network attempted by the program, in order. -/
inductive Call where
  | gethostbyname (name : List Nat)
  | socket
  | connect (addr port : Nat)
  deriving DecidableEq, Repr

/-- Diagnostics written by `err`, one per call site. -/
inductive Diag where
  | pledge
  | gethostbyname (host : List Nat)
  | inet_addr
  | socket
  | connect
  | pipe
  | pthread_create
  | output_log
  | select
  | read_command
  | recv
  | write_log
  | write_command
  deriving DecidableEq, Repr

/-- What the network answers during bootstrap. -/
structure Network where
  /-- The first address of the host entry, `none` when `gethostbyname` returns NULL. -/
  gethostbyname : List Nat → Option Nat
  /-- The descriptor returned by `socket`, `none` when it returns -1. -/
  socket : Option Nat
  /-- Whether `connect` to the address and port returns 0. -/
  connect : Nat → Nat → Bool

/-- The address `inet_addr` returns on failure. -/
def INADDR_NONE : Nat := 4294967295

/-- Outcome of `connect_to_server`. -/
structure Boot where
  stdout : List Nat
  stderr : List Diag
  calls : List Call
  /-- The exit status when the process was terminated, or the connected socket. -/
  result : Except Nat Nat

/-- The text printed by `usage`. -/
def usage_text : List Nat :=
  bytes "usage: simux [options] <host> <port>\n\noptions:\n\t-h --help\tPrint out this message.\n"

/-- The function `usage` (lines 78 to 84): prints the text and calls `exit(1)`. -/
def usage : Boot :=
  { stdout := usage_text, stderr := [], calls := [], result := .error 1 }

/-- The function `connect_to_server` (lines 86 to 118). -/
def connect_to_server (net : Network) (argc : Nat) (argv : List (List Nat)) : Boot :=
  if argc < 3 then usage
  else if strncmp (argv.getD 1 []) (bytes "-h") 2 = 0
      ∨ strncmp (argv.getD 1 []) (bytes "--help") 6 = 0 then usage
  else
    let server_hostname := argv.getD 1 []
    let server_port := to_unsigned_short (strtol (argv.getD 2 []))
    let lookup := Call.gethostbyname (cstr server_hostname)
    match net.gethostbyname (cstr server_hostname) with
    | none =>
      { stdout := [], stderr := [Diag.gethostbyname (cstr server_hostname)],
        calls := [lookup], result := .error 1 }
    | some in_addr =>
      if in_addr = INADDR_NONE then
        { stdout := [], stderr := [Diag.inet_addr], calls := [lookup], result := .error 1 }
      else
        match net.socket with
        | none =>
          { stdout := [], stderr := [Diag.socket], calls := [lookup, Call.socket],
            result := .error 1 }
        | some server_socket =>
          let calls := [lookup, Call.socket, Call.connect in_addr server_port]
          if net.connect in_addr server_port then
            { stdout := bytes "Connected to: " ++ cstr server_hostname ++ bytes ":"
                ++ format_d (server_port : Int) ++ bytes "\n",
              stderr := [], calls := calls, result := .ok server_socket }
          else
            { stdout := [], stderr := [Diag.connect], calls := calls, result := .error 1 }

/-! ## The running process: prompt loop and bridge loop -/

/-- Whether the process is alive. -/
inductive Status where
  | running
  /-- Terminated by `exit`, `err` or a return from `main`, with the exit status. -/
  | exited (code : Nat)
  /-- Killed by a memory fault. -/
  | faulted
  deriving DecidableEq, Repr

/-- The state shared by the two threads, as far as the program can observe it. -/
structure Process where
  status : Status
  stdout : List Nat
  stderr : List Diag
  calls : List Call
  /-- The commands whose pointers are in the pipe, oldest first. -/
  intake : List (List Nat)
  /-- The bytes accepted by the Connection so far. -/
  sent : List Nat
  /-- The content of `output.log`. -/
  log : List Nat
  /-- The array `buffer` of the bridge thread. -/
  buffer : List Nat

/-- The libc `err(code, ...)`: writes a diagnostic and terminates the process. -/
def err (s : Process) (code : Nat) (d : Diag) : Process :=
  { s with status := Status.exited code, stderr := s.stderr ++ [d] }

/-- What `select` reports on line 155. -/
inductive Select where
  /-- Returned -1 with `errno` equal to `EINTR`. -/
  | eintr
  /-- Returned -1 with another `errno`. -/
  | failed
  /-- Returned normally, with the descriptors it left set in `read_fds`. -/
  | ready (command_fd server_fd : Bool)

/-- What the operating system answers during one pass of the bridge loop. -/
structure Wakeup where
  select_return : Select
  /-- Whether `read` on the command descriptor returns -1. -/
  read_fails : Bool
  /-- The answer of `malloc`: `none` for NULL, otherwise the stale content of the block. -/
  malloc_return : Option (Nat → Nat)
  /-- The value of `send`: `none` for -1, otherwise the number of bytes accepted. -/
  send_return : Option Nat
  /-- The value of `recv`: `none` for a negative value, otherwise the bytes delivered. -/
  recv_return : Option (List Nat)
  /-- The value of `write` on the log: `none` for -1, otherwise the number of bytes written. -/
  write_return : Option Nat

/-- The bytes that reach the Connection from a `send` of `payload`. -/
def transmitted (payload : List Nat) (send_return : Option Nat) : List Nat :=
  match send_return with
  | none => []
  | some k => payload.take k

/-- The reaction to the command descriptor (lines 163 to 175).  A `read` on an empty
pipe waits for the next command; `select` does not report the descriptor in that case, and
the pass is modelled as leaving the state as it is. -/
def command_reaction (s : Process) (w : Wakeup) : Process :=
  if w.read_fails then err s 1 Diag.read_command
  else
    match s.intake with
    | [] => s
    | command :: rest =>
      match send_payload command w.malloc_return with
      | none => { s with intake := rest, status := Status.faulted }
      | some payload =>
        { s with intake := rest, sent := s.sent ++ transmitted payload w.send_return }

/-- The reaction to the server descriptor (lines 177 to 185). -/
def server_reaction (s : Process) (w : Wakeup) : Process :=
  match w.recv_return with
  | none => err s 1 Diag.recv
  | some chunk =>
    let buffer := chunk.take 2048 ++ s.buffer.drop (chunk.take 2048).length
    let recv_result := (chunk.take 2048).length
    match w.write_return with
    | none => err { s with buffer := buffer } 1 Diag.write_log
    | some k => { s with buffer := buffer, log := s.log ++ (buffer.take recv_result).take k }

/-- Whether the command descriptor is set after `select`. -/
def command_fd_isset (w : Wakeup) : Bool :=
  match w.select_return with
  | Select.ready command_fd _ => command_fd
  | _ => false

/-- Whether the server descriptor is set after `select`. -/
def server_fd_isset (w : Wakeup) : Bool :=
  match w.select_return with
  | Select.ready _ server_fd => server_fd
  | _ => false

/-- The state between the two reactions of one pass. -/
def after_command (s : Process) (w : Wakeup) : Process :=
  if command_fd_isset w then command_reaction s w else s

/-- One pass of the loop of `communication_thread_function` (lines 151 to 186). -/
def loop_iteration (s : Process) (w : Wakeup) : Process :=
  match s.status with
  | Status.running =>
    match w.select_return with
    | Select.eintr => s
    | Select.failed => err s 1 Diag.select
    | Select.ready _ _ =>
      match (after_command s w).status with
      | Status.running =>
        if server_fd_isset w then server_reaction (after_command s w) w else after_command s w
      | _ => after_command s w
  | _ => s

/-- One pass of the loop of `main` (lines 62 to 72): `line` is what `readline`
returns, `write_fails` tells whether the `write` to the pipe returns -1. -/
def prompt_iteration (s : Process) (line : Option Line) (write_fails : Bool) : Process :=
  match s.status with
  | Status.running =>
    match line with
    | none => { s with status := Status.exited 0 }
    | some command =>
      if write_fails then err s 1 Diag.write_command
      else { s with intake := s.intake ++ [command.text] }
  | _ => s

/-- The steps of the two threads. -/
inductive Event where
  | prompt (line : Option Line) (write_fails : Bool)
  | wakeup (w : Wakeup)

/-- One step of the process. -/
def step (s : Process) : Event → Process
  | Event.prompt line write_fails => prompt_iteration s line write_fails
  | Event.wakeup w => loop_iteration s w

/-- The process after a schedule of steps. -/
def run (s : Process) (es : List Event) : Process := es.foldl step s

/-- What the operating system answers while the process starts. -/
structure Startup where
  /-- Whether `pledge` returns -1. -/
  pledge_fails : Bool
  net : Network
  /-- Whether `pipe` returns -1. -/
  pipe_fails : Bool
  /-- Whether `pthread_create` returns non-zero. -/
  pthread_create_fails : Bool
  /-- Whether `open` of the log returns -1. -/
  open_fails : Bool
  /-- The content of `output.log` before the run. -/
  log : List Nat
  /-- The content of the array `buffer` before the first `recv`. -/
  buffer : List Nat

/-- The process when it terminates before the bridge exists. -/
def stopped (b : Boot) (code : Nat) (ds : List Diag) (log : List Nat) : Process :=
  { status := Status.exited code, stdout := b.stdout, stderr := b.stderr ++ ds, calls := b.calls,
    intake := [], sent := [], log := log, buffer := [] }

/-- The start of `main` (lines 51 to 60) together with `start_communication_thread`
and the start of `communication_thread_function` (lines 138 to 149), up to the first
pass of either loop. -/
def main_start (env : Startup) (argc : Nat) (argv : List (List Nat)) : Process :=
  if env.pledge_fails then
    stopped { stdout := [], stderr := [], calls := [], result := .error 6 } 6 [Diag.pledge] env.log
  else
    let b := connect_to_server env.net argc argv
    match b.result with
    | .error code => stopped b code [] env.log
    | .ok _ =>
      if env.pipe_fails then stopped b 1 [Diag.pipe] env.log
      else if env.pthread_create_fails then stopped b 1 [Diag.pthread_create] env.log
      else if env.open_fails then stopped b 1 [Diag.output_log] env.log
      else
        { status := Status.running, stdout := b.stdout, stderr := b.stderr, calls := b.calls,
          intake := [], sent := [], log := env.log, buffer := env.buffer }

/-- The whole program: start, then a schedule of steps of the two threads. -/
def main (env : Startup) (argc : Nat) (argv : List (List Nat)) (es : List Event) : Process :=
  run (main_start env argc argv) es

/-! ## What a schedule makes the program do -/

/-- The wire form of a list of commands: each followed by a newline. -/
def wire_lines (cs : List (List Nat)) : List Nat := (cs.map (fun c => c ++ [10])).flatten

/-- The command that step `e` puts in the pipe from state `s`, if any. -/
def enqueued_by (s : Process) : Event → List (List Nat)
  | Event.prompt (some command) false =>
    if s.status = Status.running then [command.text] else []
  | _ => []

/-- The commands put in the pipe along a schedule, in order. -/
def enqueued : Process → List Event → List (List Nat)
  | _, [] => []
  | s, e :: es => enqueued_by s e ++ enqueued (step s e) es

/-- Whether the pass `w` from state `s` reads a command from the pipe on line 165 and
goes on to build its payload. -/
def takes_command (s : Process) (w : Wakeup) : Bool :=
  decide (s.status = Status.running) && command_fd_isset w && !w.read_fails
    && !s.intake.isEmpty

/-- Whether the `send` in step `e` from state `s`, if there is one, accepts the
whole payload. -/
def send_is_whole (s : Process) : Event → Bool
  | Event.wakeup w =>
    if takes_command s w then
      match s.intake with
      | command :: _ =>
        match send_payload command w.malloc_return with
        | some payload => w.send_return == some payload.length
        | none => true
      | [] => true
    else true
  | _ => true

/-- Whether every `send` along a schedule accepts the whole payload. -/
def sends_whole : Process → List Event → Bool
  | _, [] => true
  | s, e :: es => send_is_whole s e && sends_whole (step s e) es

/-- Whether the `malloc` on line 169 in step `e` from state `s`, if there is one,
returns a block. -/
def malloc_gives_block (s : Process) : Event → Bool
  | Event.wakeup w =>
    if takes_command s w then
      match s.intake with
      | command :: _ =>
        (malloc (to_size_t (full_length_with_line_termination command)) w.malloc_return).isSome
      | [] => true
    else true
  | _ => true

/-- Whether every `malloc` along a schedule returns a block. -/
def mallocs_give_blocks : Process → List Event → Bool
  | _, [] => true
  | s, e :: es => malloc_gives_block s e && mallocs_give_blocks (step s e) es

/-- Whether the pass `w` from state `s` reaches the `recv` on line 178. -/
def reaches_recv (s : Process) (w : Wakeup) : Bool :=
  decide (s.status = Status.running) && decide ((after_command s w).status = Status.running)
    && server_fd_isset w

/-- The chunk a successful `recv` delivers in step `e` from state `s`, if any. -/
def received_by (s : Process) : Event → List (List Nat)
  | Event.wakeup w =>
    if reaches_recv s w then
      match w.recv_return with
      | some chunk => [chunk]
      | none => []
    else []
  | _ => []

/-- The chunks delivered by the successful `recv` calls along a schedule, in order. -/
def received : Process → List Event → List (List Nat)
  | _, [] => []
  | s, e :: es => received_by s e ++ received (step s e) es

/-- Whether the `write` to the log in step `e` from state `s`, if there is one,
writes the whole chunk. -/
def write_is_whole (s : Process) : Event → Bool
  | Event.wakeup w =>
    if reaches_recv s w then
      match w.recv_return with
      | some chunk => w.write_return == some (chunk.take 2048).length
      | none => true
    else true
  | _ => true

/-- Whether every `write` to the log along a schedule writes the whole chunk. -/
def writes_whole : Process → List Event → Bool
  | _, [] => true
  | s, e :: es => write_is_whole s e && writes_whole (step s e) es

/-- A terminated process whose last diagnostic is `d`, with exit status 1: nothing
the two loops do afterwards changes anything. -/
def terminated_with (t : Process) (d : Diag) : Prop :=
  t.status = Status.exited 1 ∧ t.stderr.getLast? = some d ∧ ∀ es : List Event, run t es = t

/-! ## Concrete inputs -/

/-- The line `ls`. -/
def line_ls : Line := { text := bytes "ls", counted := by decide }

/-- The empty line. -/
def line_empty : Line := { text := [], counted := by decide }

/-- The line `status`. -/
def line_status : Line := { text := bytes "status", counted := by decide }

/-- The line `a`, newline, `b`. -/
def line_with_newline : Line := { text := [97, 10, 98], counted := by decide }

/-- The process right after a successful start, with an empty log. -/
def idle : Process :=
  { status := Status.running, stdout := [], stderr := [], calls := [], intake := [], sent := [],
    log := [], buffer := List.replicate 2048 0 }

/-- A pass in which `select` reports nothing and no call fails. -/
def quiet : Wakeup :=
  { select_return := Select.ready false false, read_fails := false,
    malloc_return := some (fun _ => 0), send_return := none, recv_return := none,
    write_return := none }

/-- A pass that reacts to the command descriptor only; `send` returns `r`. -/
def command_pass (r : Option Nat) : Wakeup :=
  { quiet with select_return := Select.ready true false, send_return := r }

/-- A pass that reacts to the server descriptor only; `recv` returns `r` and
`write` returns `k`. -/
def server_pass (r : Option (List Nat)) (k : Option Nat) : Wakeup :=
  { quiet with select_return := Select.ready false true, recv_return := r, write_return := k }

/-- A pass that reacts to both descriptors. -/
def double_pass (n : Option Nat) (r : Option (List Nat)) (k : Option Nat) : Wakeup :=
  { quiet with
    select_return := Select.ready true true
    send_return := n
    recv_return := r
    write_return := k }

/-- A pass that reacts to the command descriptor only and in which `malloc` returns NULL. -/
def starved_pass : Wakeup :=
  { quiet with select_return := Select.ready true false, malloc_return := none }

/-- A pass in which `select` is interrupted by a signal. -/
def interrupted_pass : Wakeup := { quiet with select_return := Select.eintr }

/-- A pass in which the `read` on the command descriptor fails. -/
def read_error_pass : Wakeup :=
  { quiet with select_return := Select.ready true false, read_fails := true }

/-- The operator enters `ls` and an empty line; the server sends `OK\n` while the
first command is being forwarded. -/
def two_commands : List Event :=
  [Event.prompt (some line_ls) false, Event.prompt (some line_empty) false,
   Event.wakeup (double_pass (some 3) (some (bytes "OK\n")) (some 3)),
   Event.wakeup (command_pass (some 1))]

/-- The server sends `OK\n`, then nothing, then `bye`, with a command typed in between. -/
def three_chunks : List Event :=
  [Event.wakeup (server_pass (some (bytes "OK\n")) (some 3)),
   Event.prompt (some line_status) false,
   Event.wakeup (double_pass (some 7) (some []) (some 0)),
   Event.wakeup (server_pass (some (bytes "bye")) (some 3))]

/-- The operator enters `ls`; when the bridge takes it from the pipe, `malloc` returns
NULL. -/
def starved_schedule : List Event :=
  [Event.prompt (some line_ls) false, Event.wakeup starved_pass]

/-- The process with the command `ls` waiting in the pipe. -/
def one_queued : Process := { idle with intake := [bytes "ls"] }

/-- A network on which every name resolves to 127.0.0.1 and every connect succeeds. -/
def friendly_net : Network :=
  { gethostbyname := fun _ => some 2130706433, socket := some 3, connect := fun _ _ => true }

/-- A network on which names resolve but every connect is refused. -/
def refusing_net : Network :=
  { gethostbyname := fun _ => some 2130706433, socket := some 3, connect := fun _ _ => false }

/-- A start in which every call other than those of the network succeeds. -/
def smooth_start (net : Network) : Startup :=
  { pledge_fails := false, net := net, pipe_fails := false, pthread_create_fails := false,
    open_fails := false, log := [], buffer := List.replicate 2048 0 }

/-- A start in which `pledge` fails. -/
def pledge_denied : Startup := { (smooth_start friendly_net) with pledge_fails := true }

/-! ## Facts about the string functions -/

theorem take_append_of_length (l r : List Nat) (k : Nat) (h : l.length = k) :
    (l ++ r).take k = l := by
  subst h; exact List.take_left _ _

theorem drop_append_of_length (l r : List Nat) (k : Nat) (h : l.length = k) :
    (l ++ r).drop k = r := by
  subst h; exact List.drop_left _ _

theorem cstr_append_nul (c rest : List Nat) (h : 0 ∉ c) : cstr (c ++ 0 :: rest) = c := by
  induction c with
  | nil => simp [cstr]
  | cons b bs ih =>
    have hb : b ≠ 0 := fun e => h (by simp [e])
    have hbs : 0 ∉ bs := fun e => h (by simp [e])
    have := ih hbs
    simp only [cstr] at this ⊢
    rw [List.cons_append, List.takeWhile_cons]
    simp [hb, this]

theorem cstr_of_nul_free (c : List Nat) (h : 0 ∉ c) : cstr c = c := by
  induction c with
  | nil => simp [cstr]
  | cons b bs ih =>
    have hb : b ≠ 0 := fun e => h (by simp [e])
    have hbs : 0 ∉ bs := fun e => h (by simp [e])
    have := ih hbs
    simp only [cstr] at this ⊢
    rw [List.takeWhile_cons]
    simp [hb, this]

theorem strlen_of_nul_free (c : List Nat) (h : 0 ∉ c) : strlen c = c.length := by
  simp [strlen, cstr_of_nul_free c h]

theorem strlen_append_nul (c rest : List Nat) (h : 0 ∉ c) : strlen (c ++ 0 :: rest) = c.length := by
  simp [strlen, cstr_append_nul c rest h]

theorem cstr_newline : cstr (bytes "\n") = [10] := by decide

/-- The buffer after `strlcpy` and `strlcat` with a size that leaves room for the
command, the newline and the terminator. -/
theorem strlcat_strlcpy_fits (block c : List Nat) (size : Nat) (h : 0 ∉ c)
    (hsize : c.length + 2 ≤ size) :
    strlcat (strlcpy block c size) (bytes "\n") size
      = c ++ 10 :: 0 :: (block.drop (c.length + 1)).drop 1 := by
  have h0 : size ≠ 0 := by omega
  have hcopy : (cstr c).take (size - 1) = c := by
    rw [cstr_of_nul_free c h]; exact List.take_of_length_le (by omega)
  have hcpy : strlcpy block c size = c ++ 0 :: block.drop (c.length + 1) := by
    simp only [strlcpy, h0, if_false, hcopy]
  rw [hcpy]
  have htake : (c ++ 0 :: block.drop (c.length + 1)).take size
      = c ++ 0 :: (block.drop (c.length + 1)).take (size - c.length - 1) := by
    rw [List.take_append_eq_append_take, List.take_of_length_le (by omega)]
    obtain ⟨k, hk⟩ : ∃ k, size - c.length = k + 1 := ⟨size - c.length - 1, by omega⟩
    rw [hk, List.take_succ_cons, Nat.add_sub_cancel]
  have hdlen : strlen ((c ++ 0 :: block.drop (c.length + 1)).take size) = c.length := by
    rw [htake, strlen_append_nul c _ h]
  have hroom : size - c.length ≠ 0 := by omega
  have hadd : (cstr (bytes "\n")).take (size - c.length - 1) = [10] := by
    rw [cstr_newline]; exact List.take_of_length_le (by simp; omega)
  simp only [strlcat, hdlen, hroom, if_false, hadd]
  have hdrop : (c ++ 0 :: block.drop (c.length + 1)).drop (c.length + [10].length + 1)
      = (block.drop (c.length + 1)).drop 1 := by
    have e : c.length + [10].length + 1 = c.length + 2 := by simp
    rw [e, List.drop_append]; rfl
  rw [hdrop, List.take_left]
  simp

theorem to_size_t_full_length (c : List Nat) (h : 0 ∉ c) (hlen : c.length + 2 < 2 ^ 31) :
    to_size_t (full_length_with_line_termination c) = c.length + 2 := by
  have h1 : (c.length + 2) % 2 ^ 64 = c.length + 2 := Nat.mod_eq_of_lt (by omega)
  have h2 : (c.length + 2) % 2 ^ 32 = c.length + 2 := Nat.mod_eq_of_lt (by omega)
  simp only [full_length_with_line_termination, strlen_of_nul_free c h, h1, to_int, h2, hlen,
    if_true, to_size_t]
  have h3 : ((c.length + 2 : Nat) : Int) % 2 ^ 64 = ((c.length + 2 : Nat) : Int) := by
    apply Int.emod_eq_of_lt <;> omega
  rw [h3]; rfl

/-- The size passed to `malloc`, `strlcpy` and `strlcat`, by the value of
`strlen(command)+2` modulo `2^32`. -/
theorem to_size_t_to_int (k : Nat) :
    to_size_t (to_int k)
      = if k % 2 ^ 32 < 2 ^ 31 then k % 2 ^ 32 else 2 ^ 64 - 2 ^ 32 + k % 2 ^ 32 := by
  have hm : k % 2 ^ 32 < 2 ^ 32 := Nat.mod_lt _ (by decide)
  simp only [to_size_t, to_int]
  generalize k % 2 ^ 32 = m at hm
  split
  · have : ((m : Nat) : Int) % 2 ^ 64 = (m : Int) := by
      apply Int.emod_eq_of_lt <;> omega
    rw [this]; rfl
  · have : ((m : Nat) : Int) - 2 ^ 32 = ((2 ^ 64 - 2 ^ 32 + m : Nat) : Int) - 2 ^ 64 := by
      omega
    rw [this, Int.sub_emod, Int.emod_self, sub_zero, Int.emod_emod]
    have : ((2 ^ 64 - 2 ^ 32 + m : Nat) : Int) % 2 ^ 64 = ((2 ^ 64 - 2 ^ 32 + m : Nat) : Int) := by
      apply Int.emod_eq_of_lt <;> omega
    rw [this]; rfl

/-- A block that `malloc` returns has the size asked for, and the size is one an
allocator can serve. -/
theorem malloc_block (size : Nat) (answer : Option (Nat → Nat)) (block : List Nat)
    (h : malloc size answer = some block) :
    size ≤ PTRDIFF_MAX ∧ block.length = size ∧ ∃ stale, answer = some stale := by
  unfold malloc at h
  split at h
  · cases h
  · cases answer with
    | none => cases h
    | some stale =>
      simp only [Option.some.injEq] at h
      subst h
      exact ⟨by omega, by simp, stale, rfl⟩

/-- When `malloc` returns a block for a line of `readline`, `strlen(command)+2` fitted the
`int`: the two lengths that do not fit turn into requests no allocator can serve. -/
theorem fits_of_block (c : List Nat) (answer : Option (Nat → Nat)) (block : List Nat)
    (hnul : 0 ∉ c) (hcount : c.length ≤ INT_MAX)
    (h : malloc (to_size_t (full_length_with_line_termination c)) answer = some block) :
    c.length + 2 < 2 ^ 31 := by
  by_contra hbig
  simp only [INT_MAX] at hcount
  have hsz : to_size_t (full_length_with_line_termination c)
      = 2 ^ 64 - 2 ^ 32 + (c.length + 2) := by
    have h1 : (c.length + 2) % 2 ^ 64 = c.length + 2 := Nat.mod_eq_of_lt (by omega)
    have h2 : (c.length + 2) % 2 ^ 32 = c.length + 2 := Nat.mod_eq_of_lt (by omega)
    rw [full_length_with_line_termination, strlen_of_nul_free c hnul, h1, to_size_t_to_int,
      h2, if_neg hbig]
  have := (malloc_block _ _ _ h).1
  rw [hsz] at this
  simp only [PTRDIFF_MAX] at this
  omega

/-- The bytes handed to `send` for a NUL-free command whose length plus two fits an `int`,
when `malloc` returns a block. -/
theorem send_payload_of_fitting (c : List Nat) (stale : Nat → Nat) (h : 0 ∉ c)
    (hlen : c.length + 2 < 2 ^ 31) : send_payload c (some stale) = some (c ++ [10]) := by
  have hm : malloc (c.length + 2) (some stale)
      = some ((List.range (c.length + 2)).map stale) := by
    have : ¬ PTRDIFF_MAX < c.length + 2 := by simp only [PTRDIFF_MAX]; omega
    simp only [malloc, this, if_false]
  have hnl : 0 ∉ c ++ [10] := by simp [h]
  have hbuf : ∀ rest : List Nat, c ++ 10 :: 0 :: rest = (c ++ [10]) ++ 0 :: rest := by
    intro rest; simp
  simp only [send_payload, command_with_lineending, to_size_t_full_length c h hlen, hm,
    strlcat_strlcpy_fits _ c _ h (le_refl _)]
  rw [hbuf, strlen_append_nul _ _ hnl]
  rw [List.take_left]
  simp

/-- The bytes handed to `send` for a line of `readline` when `malloc` returns a block. -/
theorem send_payload_of_block (c : List Nat) (answer : Option (Nat → Nat)) (block : List Nat)
    (hnul : 0 ∉ c) (hcount : c.length ≤ INT_MAX)
    (h : malloc (to_size_t (full_length_with_line_termination c)) answer = some block) :
    send_payload c answer = some (c ++ [10]) ∧ block.length = c.length + 2 := by
  have hfit := fits_of_block c answer block hnul hcount h
  obtain ⟨_, hlen, stale, hst⟩ := malloc_block _ _ _ h
  rw [to_size_t_full_length c hnul hfit] at hlen
  rw [hst]
  exact ⟨send_payload_of_fitting c stale hnul hfit, hlen⟩

/-- When `malloc` returns NULL nothing is handed to `send`: the program faults. -/
theorem send_payload_of_null (c : List Nat) : send_payload c none = none := by
  have hm : ∀ size, malloc size none = none := by
    intro size; unfold malloc; split <;> rfl
  simp only [send_payload, command_with_lineending, hm]

/-! ## Facts about the bridge loop -/

theorem wire_lines_nil : wire_lines [] = [] := rfl

theorem wire_lines_cons (c : List Nat) (cs : List (List Nat)) :
    wire_lines (c :: cs) = c ++ [10] ++ wire_lines cs := by
  simp [wire_lines]

theorem wire_lines_append (a b : List (List Nat)) :
    wire_lines (a ++ b) = wire_lines a ++ wire_lines b := by
  simp [wire_lines]

theorem server_reaction_sent (s : Process) (w : Wakeup) :
    (server_reaction s w).sent = s.sent ∧ (server_reaction s w).intake = s.intake := by
  unfold server_reaction
  cases w.recv_return with
  | none => exact ⟨rfl, rfl⟩
  | some chunk =>
    cases w.write_return with
    | none => exact ⟨rfl, rfl⟩
    | some k => exact ⟨rfl, rfl⟩

theorem loop_iteration_of_not_running (s : Process) (w : Wakeup) (h : s.status ≠ Status.running) :
    loop_iteration s w = s := by
  unfold loop_iteration
  split
  · contradiction
  · rfl

theorem prompt_iteration_of_not_running (s : Process) (line : Option Line) (wf : Bool)
    (h : s.status ≠ Status.running) : prompt_iteration s line wf = s := by
  unfold prompt_iteration
  split
  · contradiction
  · rfl

theorem step_of_not_running (s : Process) (e : Event) (h : s.status ≠ Status.running) :
    step s e = s := by
  cases e with
  | prompt line wf => exact prompt_iteration_of_not_running s line wf h
  | wakeup w => exact loop_iteration_of_not_running s w h

theorem run_of_not_running (s : Process) (es : List Event) (h : s.status ≠ Status.running) :
    run s es = s := by
  induction es with
  | nil => rfl
  | cons e es ih =>
    show run (step s e) es = s
    rw [step_of_not_running s e h]; exact ih

theorem run_cons (s : Process) (e : Event) (es : List Event) :
    run s (e :: es) = run (step s e) es := rfl

theorem takes_command_intake (s : Process) (w : Wakeup) (h : takes_command s w = true) :
    ∃ c rest, s.intake = c :: rest := by
  cases hi : s.intake with
  | nil => simp [takes_command, hi] at h
  | cons c rest => exact ⟨c, rest, rfl⟩

/-- The part of the state the command reaction works on, after one pass. -/
theorem loop_iteration_after_command (s : Process) (w : Wakeup) (h : s.status = Status.running) :
    (loop_iteration s w).sent = (after_command s w).sent
      ∧ (loop_iteration s w).intake = (after_command s w).intake := by
  unfold loop_iteration
  rw [h]
  cases hs : w.select_return with
  | eintr => simp [after_command, command_fd_isset, hs]
  | failed => simp [after_command, command_fd_isset, hs, err]
  | ready cf sf =>
    simp only
    split
    · split
      · exact server_reaction_sent _ _
      · exact ⟨rfl, rfl⟩
    · exact ⟨rfl, rfl⟩

theorem loop_iteration_no_send (s : Process) (w : Wakeup) (h : takes_command s w = false) :
    (loop_iteration s w).sent = s.sent ∧ (loop_iteration s w).intake = s.intake := by
  by_cases hr : s.status = Status.running
  · rw [(loop_iteration_after_command s w hr).1, (loop_iteration_after_command s w hr).2]
    unfold after_command
    by_cases hc : command_fd_isset w = true
    · by_cases hf : w.read_fails = true
      · simp [hc, command_reaction, hf, err]
      · have hi : s.intake = [] := by
          simpa [takes_command, hr, hc, hf] using h
        simp [hc, command_reaction, hf, hi]
    · simp [hc]
  · rw [loop_iteration_of_not_running s w hr]; exact ⟨rfl, rfl⟩

theorem loop_iteration_send (s : Process) (w : Wakeup) (c : List Nat) (rest : List (List Nat))
    (h : takes_command s w = true) (hi : s.intake = c :: rest) (payload : List Nat)
    (hp : send_payload c w.malloc_return = some payload) :
    (loop_iteration s w).sent = s.sent ++ transmitted payload w.send_return
      ∧ (loop_iteration s w).intake = rest := by
  simp only [takes_command, Bool.and_eq_true, decide_eq_true_eq, Bool.not_eq_true'] at h
  obtain ⟨⟨⟨hr, hc⟩, hf⟩, _⟩ := h
  rw [(loop_iteration_after_command s w hr).1, (loop_iteration_after_command s w hr).2]
  simp [after_command, hc, command_reaction, hf, hi, hp]

/-- One step keeps the bytes sent and the lines still queued in step with the
commands put in the pipe. -/
theorem step_wire (s : Process) (e : Event)
    (hgood : ∀ c ∈ s.intake, 0 ∉ c ∧ c.length ≤ INT_MAX)
    (hm : malloc_gives_block s e = true)
    (hw : send_is_whole s e = true) :
    (step s e).sent ++ wire_lines (step s e).intake
        = s.sent ++ wire_lines s.intake ++ wire_lines (enqueued_by s e)
      ∧ ∀ c ∈ (step s e).intake, c ∈ s.intake ∨ c ∈ enqueued_by s e := by
  cases e with
  | prompt line wf =>
    by_cases hr : s.status = Status.running
    · cases line with
      | none => simp [step, prompt_iteration, hr, enqueued_by, wire_lines_nil]
      | some command =>
        cases wf with
        | true => simp [step, prompt_iteration, hr, enqueued_by, wire_lines_nil, err]
        | false =>
          simp [step, prompt_iteration, hr, enqueued_by, wire_lines_append]
    · rw [step_of_not_running s _ hr]
      have : enqueued_by s (Event.prompt line wf) = [] := by
        cases line with
        | none => rfl
        | some command => cases wf <;> simp [enqueued_by, hr]
      rw [this]; simp [wire_lines_nil]
  | wakeup w =>
    have he : enqueued_by s (Event.wakeup w) = [] := rfl
    rw [he, wire_lines_nil, List.append_nil]
    have hstep : step s (Event.wakeup w) = loop_iteration s w := rfl
    rw [hstep]
    cases hs : takes_command s w with
    | false =>
      obtain ⟨h1, h2⟩ := loop_iteration_no_send s w hs
      rw [h1, h2]; simp
    | true =>
      obtain ⟨c, rest, hi⟩ := takes_command_intake s w hs
      obtain ⟨hnul, hcount⟩ := hgood c (by simp [hi])
      simp only [malloc_gives_block, hs, if_true, hi, Option.isSome_iff_exists] at hm
      obtain ⟨block, hblock⟩ := hm
      have hp := (send_payload_of_block c w.malloc_return block hnul hcount hblock).1
      obtain ⟨h1, h2⟩ := loop_iteration_send s w c rest hs hi _ hp
      have hk : w.send_return = some (c ++ [10]).length := by
        simp only [send_is_whole, hs, if_true, hi, hp] at hw
        simpa using hw
      rw [h1, h2, hk, hi, wire_lines_cons]
      have ht : transmitted (c ++ [10]) (some (c ++ [10]).length) = c ++ [10] := by
        simp only [transmitted]; exact List.take_length _
      rw [ht]
      refine ⟨by simp, fun x hx => Or.inl (List.mem_cons_of_mem _ hx)⟩

/-- Every command put in the pipe is a line of `readline`. -/
theorem enqueued_counted (es : List Event) :
    ∀ (s : Process), ∀ c ∈ enqueued s es, c.length ≤ INT_MAX := by
  induction es with
  | nil => intro s c hc; simp [enqueued] at hc
  | cons e es ih =>
    intro s c hc
    simp only [enqueued, List.mem_append] at hc
    rcases hc with h | h
    · cases e with
      | wakeup w => simp [enqueued_by] at h
      | prompt line wf =>
        cases line with
        | none => simp [enqueued_by] at h
        | some command =>
          cases wf with
          | true => simp [enqueued_by] at h
          | false =>
            simp only [enqueued_by] at h
            split at h
            · simp at h; rw [h]; exact command.counted
            · simp at h
    · exact ih _ c h

theorem run_wire (es : List Event) : ∀ (s : Process),
    (∀ c ∈ s.intake, 0 ∉ c ∧ c.length ≤ INT_MAX) →
    (∀ c ∈ enqueued s es, 0 ∉ c) →
    mallocs_give_blocks s es = true →
    sends_whole s es = true →
    (run s es).sent ++ wire_lines (run s es).intake
      = s.sent ++ wire_lines s.intake ++ wire_lines (enqueued s es) := by
  induction es with
  | nil => intro s _ _ _ _; simp [run, enqueued, wire_lines_nil]
  | cons e es ih =>
    intro s hgood henq hm hw
    simp only [sends_whole, Bool.and_eq_true] at hw
    simp only [mallocs_give_blocks, Bool.and_eq_true] at hm
    obtain ⟨hstep, hmem⟩ := step_wire s e hgood hm.1 hw.1
    have hgood2 : ∀ c ∈ (step s e).intake, 0 ∉ c ∧ c.length ≤ INT_MAX := by
      intro c hc
      rcases hmem c hc with h | h
      · exact hgood c h
      · exact ⟨henq c (by simp [enqueued, h]),
          enqueued_counted (e :: es) s c (by simp [enqueued, h])⟩
    have henq2 : ∀ c ∈ enqueued (step s e) es, 0 ∉ c := by
      intro c hc
      exact henq c (by simp [enqueued, hc])
    rw [run_cons, ih (step s e) hgood2 henq2 hm.2 hw.2, hstep]
    simp [enqueued, wire_lines_append]

theorem after_command_log (s : Process) (w : Wakeup) : (after_command s w).log = s.log := by
  unfold after_command
  split
  · unfold command_reaction
    split
    · rfl
    · split
      · rfl
      · split <;> rfl
  · rfl

theorem loop_iteration_no_recv (s : Process) (w : Wakeup) (h : reaches_recv s w = false) :
    (loop_iteration s w).log = s.log := by
  by_cases hr : s.status = Status.running
  · unfold loop_iteration
    rw [hr]
    cases hs : w.select_return with
    | eintr => rfl
    | failed => rfl
    | ready cf sf =>
      simp only
      by_cases ha : (after_command s w).status = Status.running
      · have hsf : server_fd_isset w = false := by
          simpa [reaches_recv, hr, ha] using h
        rw [ha]
        simp only [hsf]
        exact after_command_log s w
      · split
        · contradiction
        · exact after_command_log s w
  · rw [loop_iteration_of_not_running s w hr]

theorem loop_iteration_recv (s : Process) (w : Wakeup) (h : reaches_recv s w = true) :
    loop_iteration s w = server_reaction (after_command s w) w := by
  simp only [reaches_recv, Bool.and_eq_true, decide_eq_true_eq] at h
  obtain ⟨⟨hr, ha⟩, hsf⟩ := h
  unfold loop_iteration
  rw [hr]
  cases hs : w.select_return with
  | eintr => simp [server_fd_isset, hs] at hsf
  | failed => simp [server_fd_isset, hs] at hsf
  | ready cf sf =>
    simp only
    rw [ha]
    simp only [hsf, if_true]

/-- One step appends to the log exactly the chunk its `recv` delivered. -/
theorem step_log (s : Process) (e : Event)
    (hlen : ∀ b ∈ received_by s e, b.length ≤ 2048)
    (hw : write_is_whole s e = true) :
    (step s e).log = s.log ++ (received_by s e).flatten := by
  cases e with
  | prompt line wf =>
    have : received_by s (Event.prompt line wf) = [] := rfl
    rw [this]
    by_cases hr : s.status = Status.running
    · cases line with
      | none => simp [step, prompt_iteration, hr]
      | some command => cases wf <;> simp [step, prompt_iteration, hr, err]
    · rw [step_of_not_running s _ hr]; simp
  | wakeup w =>
    have hstep : step s (Event.wakeup w) = loop_iteration s w := rfl
    rw [hstep]
    cases hs : reaches_recv s w with
    | false =>
      rw [loop_iteration_no_recv s w hs]
      simp [received_by, hs]
    | true =>
      rw [loop_iteration_recv s w hs]
      cases hrecv : w.recv_return with
      | none =>
        simp [received_by, hs, hrecv, server_reaction, err, after_command_log]
      | some chunk =>
        have hl : chunk.length ≤ 2048 := hlen chunk (by simp [received_by, hs, hrecv])
        have htake : chunk.take 2048 = chunk := List.take_of_length_le hl
        have hk : w.write_return = some chunk.length := by
          simp only [write_is_whole, hs, if_true, hrecv, htake] at hw
          simpa using hw
        simp only [received_by, hs, if_true, hrecv, server_reaction, hk, htake,
          after_command_log]
        simp

theorem run_log (es : List Event) : ∀ (s : Process),
    (∀ b ∈ received s es, b.length ≤ 2048) →
    writes_whole s es = true →
    (run s es).log = s.log ++ (received s es).flatten := by
  induction es with
  | nil => intro s _ _; simp [run, received]
  | cons e es ih =>
    intro s hlen hw
    simp only [writes_whole, Bool.and_eq_true] at hw
    have h1 := step_log s e (fun b hb => hlen b (by simp [received, hb])) hw.1
    have h2 := ih (step s e) (fun b hb => hlen b (by simp [received, hb])) hw.2
    rw [run_cons, h2, h1]
    simp [received]

/-! ## Facts about the bootstrap -/

theorem strncmp_eq_zero_iff (pat : List Nat) : ∀ (s : List Nat), 0 ∉ pat →
    (strncmp s pat pat.length = 0 ↔ pat <+: s) := by
  induction pat with
  | nil => intro s _; simp [strncmp]
  | cons p ps ih =>
    intro s h
    have hp : p ≠ 0 := fun e => h (by simp [e])
    have hps : 0 ∉ ps := fun e => h (by simp [e])
    cases s with
    | nil =>
      have h0 : ¬ (0 = p) := fun e => hp e.symm
      simp [strncmp, h0]
      omega
    | cons a as =>
      by_cases hap : a = p
      · subst hap
        simp only [List.length_cons, strncmp, List.headD_cons, ne_eq, not_true_eq_false,
          if_false, hp, List.tail_cons]
        rw [ih as hps]
        simp [List.cons_prefix_cons]
      · have : (a : Int) - (p : Int) ≠ 0 := by omega
        have hpa : ¬ p = a := fun e => hap e.symm
        simp [strncmp, hap, hpa, this, List.cons_prefix_cons]

theorem digits_value_append_digit (l : List Nat) (d : Nat) (hl : ∀ c ∈ l, isdigit c = true)
    (hd : isdigit d = true) : digits_value (l ++ [d]) = digits_value l * 10 + (d - 48) := by
  have h1 : (l ++ [d]).takeWhile isdigit = l ++ [d] := by
    rw [List.takeWhile_eq_self_iff]
    intro c hc
    rcases List.mem_append.1 hc with h | h
    · exact hl c h
    · simp at h; rw [h]; exact hd
  have h2 : l.takeWhile isdigit = l := by
    rw [List.takeWhile_eq_self_iff]; exact hl
  simp [digits_value, h1, h2, List.foldl_append]

theorem decimal_digits (n : Nat) : ∀ c ∈ decimal n, isdigit c = true := by
  induction n using Nat.strong_induction_on with
  | _ n ih =>
    intro c hc
    rw [decimal] at hc
    split at hc
    · simp at hc; subst hc; simp [isdigit]; omega
    · rcases List.mem_append.1 hc with h | h
      · exact ih (n / 10) (by omega) c h
      · simp at h; subst h; simp [isdigit]; omega

theorem digits_value_decimal (n : Nat) : digits_value (decimal n) = n := by
  induction n using Nat.strong_induction_on with
  | _ n ih =>
    rw [decimal]
    split
    · rename_i h
      have : isdigit (48 + n) = true := by simp [isdigit]; omega
      simp [digits_value, List.takeWhile, this]
    · rw [digits_value_append_digit _ _ (decimal_digits _) (by simp [isdigit]; omega),
        ih (n / 10) (by omega)]
      omega

theorem decimal_ne_nil (n : Nat) : decimal n ≠ [] := by
  rw [decimal]; split <;> simp

theorem decimal_nul_free (n : Nat) : 0 ∉ decimal n := by
  intro h
  have := decimal_digits n 0 h
  simp [isdigit] at this

theorem strtol_decimal (n : Nat) (h : (n : Int) ≤ LONG_MAX) : strtol (decimal n) = n := by
  have hc : cstr (decimal n) = decimal n := cstr_of_nul_free _ (decimal_nul_free n)
  obtain ⟨d, ds, hd⟩ := List.exists_cons_of_ne_nil (decimal_ne_nil n)
  have hdig : isdigit d = true := decimal_digits n d (by simp [hd])
  have hsp : isspace d = false := by
    simp [isdigit] at hdig
    simp [isspace]; omega
  have hdrop : (decimal n).dropWhile isspace = d :: ds := by
    rw [hd, List.dropWhile_cons]; simp [hsp]
  have h45 : d ≠ 45 := by intro e; subst e; simp [isdigit] at hdig
  have h43 : d ≠ 43 := by intro e; subst e; simp [isdigit] at hdig
  unfold strtol
  rw [hc, hdrop]
  split
  · rename_i heq; cases heq; exact absurd rfl h45
  · rename_i heq; cases heq; exact absurd rfl h43
  · rw [← hd, digits_value_decimal]
    exact min_eq_right h

/-! ## The claims -/

/-- C3 (as amended): for every command `c` that `readline` returned, of `n` non-NUL bytes,
provided the `malloc` on line 169 returns a block, the block has `n + 2` bytes and the bytes
handed to `send` are the `n` bytes of `c` followed by one newline, `n + 1` bytes in all,
nothing cut, whatever the block held before; bytes of `c` that are themselves newlines are
passed on as they are, and the empty command gives the single byte newline. -/
theorem C3_payload_is_command_and_newline (c : Line) (answer : Option (Nat → Nat))
    (block : List Nat) (hnul : 0 ∉ c.text)
    (halloc : malloc (to_size_t (full_length_with_line_termination c.text)) answer
      = some block) :
    block.length = c.text.length + 2
      ∧ send_payload c.text answer = some (c.text ++ [10])
      ∧ (c.text ++ [10]).length = c.text.length + 1
      ∧ send_payload [] answer = some [10] := by
  obtain ⟨hp, hlen⟩ := send_payload_of_block c.text answer block hnul c.counted halloc
  obtain ⟨_, _, stale, hst⟩ := malloc_block _ _ _ halloc
  refine ⟨hlen, hp, by simp, ?_⟩
  rw [hst]
  exact send_payload_of_fitting [] stale (by simp) (by simp)

/-- C3 (as amended) at the command `a\nb`, with a block full of the byte 255. -/
theorem C3_payload_witness :
    [255, 255, 255, 255, 255].length = line_with_newline.text.length + 2
      ∧ send_payload line_with_newline.text (some (fun _ => 255))
          = some (line_with_newline.text ++ [10])
      ∧ (line_with_newline.text ++ [10]).length = line_with_newline.text.length + 1
      ∧ send_payload [] (some (fun _ => 255)) = some [10] :=
  C3_payload_is_command_and_newline line_with_newline (some (fun _ => 255))
    [255, 255, 255, 255, 255] (by decide) (by decide)

/-- C3 as stated fails: for the command `ls` the program asks `malloc` for `n + 2 = 4` bytes;
when `malloc` returns NULL no payload is built and handed to `send`, the process faults. -/
theorem C3_no_payload_without_memory :
    0 ∉ line_ls.text
      ∧ to_size_t (full_length_with_line_termination line_ls.text) = line_ls.text.length + 2
      ∧ malloc (line_ls.text.length + 2) none = none
      ∧ send_payload line_ls.text none = none
      ∧ send_payload line_ls.text none ≠ some (line_ls.text ++ [10])
      ∧ (loop_iteration one_queued starved_pass).status = Status.faulted
      ∧ (loop_iteration one_queued starved_pass).sent = [] := by
  decide

theorem step_wakeup (s : Process) (w : Wakeup) : step s (Event.wakeup w) = loop_iteration s w :=
  rfl

theorem run_nil (s : Process) : run s [] = s := rfl

theorem loop_iteration_dequeues (s : Process) (w : Wakeup) (c : List Nat)
    (rest : List (List Nat)) (h : takes_command s w = true) (hi : s.intake = c :: rest) :
    (loop_iteration s w).intake = rest := by
  simp only [takes_command, Bool.and_eq_true, decide_eq_true_eq, Bool.not_eq_true'] at h
  obtain ⟨⟨⟨hr, hc⟩, hf⟩, _⟩ := h
  rw [(loop_iteration_after_command s w hr).2]
  cases hp : send_payload c w.malloc_return <;>
    simp [after_command, hc, command_reaction, hf, hi, hp]

/-- C1 (as amended): start from a state with an empty pipe and nothing sent, and take any
schedule of prompt passes and bridge passes.  If the commands the prompt loop put in the
pipe are `cs`, each NUL-free, every `malloc` on line 169 returns a block and every `send`
accepts the whole payload, then the bytes sent followed by the lines of the commands still
queued are the lines of `cs` in entry order; once the pipe is empty the bytes sent are
exactly those lines.  A pass that takes a command takes exactly the oldest one out of the
pipe, and a pass that does not leaves both the pipe and the bytes sent as they were. -/
theorem C1_commands_reach_the_wire_in_order (s : Process) (es : List Event)
    (cs : List (List Nat)) (hintake : s.intake = []) (hsent : s.sent = [])
    (hcs : enqueued s es = cs)
    (hnul : ∀ c ∈ cs, 0 ∉ c)
    (halloc : mallocs_give_blocks s es = true)
    (hsend : sends_whole s es = true) :
    (run s es).sent ++ wire_lines (run s es).intake = wire_lines cs
      ∧ ((run s es).intake = [] → (run s es).sent = wire_lines cs)
      ∧ (∀ (t : Process) (w : Wakeup),
          (takes_command t w = false → (loop_iteration t w).intake = t.intake
              ∧ (loop_iteration t w).sent = t.sent)
          ∧ (takes_command t w = true → ∃ c, t.intake = c :: (loop_iteration t w).intake)) := by
  have h := run_wire es s (by simp [hintake]) (by rw [hcs]; exact hnul) halloc hsend
  rw [hintake, hsent, hcs] at h
  simp only [wire_lines_nil, List.nil_append] at h
  refine ⟨h, ?_, ?_⟩
  · intro he
    rw [he, wire_lines_nil, List.append_nil] at h
    exact h
  · intro t w
    refine ⟨fun hn => ⟨(loop_iteration_no_send t w hn).2, (loop_iteration_no_send t w hn).1⟩, ?_⟩
    intro hy
    obtain ⟨c, rest, hi⟩ := takes_command_intake t w hy
    exact ⟨c, by rw [loop_iteration_dequeues t w c rest hy hi]; exact hi⟩

/-- What the schedule `two_commands` does: both lines are sent, the pipe is empty and
the server's answer is in the log. -/
theorem two_commands_outcome :
    (run idle two_commands).sent = bytes "ls\n\n" ∧ (run idle two_commands).intake = []
      ∧ (run idle two_commands).log = bytes "OK\n" := by
  decide

/-- C1 (as amended) at the schedule `two_commands`. -/
theorem C1_two_commands_witness :
    (run idle two_commands).sent ++ wire_lines (run idle two_commands).intake
        = wire_lines [bytes "ls", []]
      ∧ ((run idle two_commands).intake = []
          → (run idle two_commands).sent = wire_lines [bytes "ls", []])
      ∧ (∀ (t : Process) (w : Wakeup),
          (takes_command t w = false → (loop_iteration t w).intake = t.intake
              ∧ (loop_iteration t w).sent = t.sent)
          ∧ (takes_command t w = true → ∃ c, t.intake = c :: (loop_iteration t w).intake)) :=
  C1_commands_reach_the_wire_in_order idle two_commands [bytes "ls", []] rfl rfl
    (by decide) (by decide) (by decide) (by decide)

/-- C1 as stated fails: the operator enters `ls`, the bridge takes it from the pipe and
`malloc` returns NULL.  No `send` was refused, the pipe is empty, and nothing was sent: the
process faulted with the command in hand. -/
theorem C1_command_lost_without_memory :
    enqueued idle starved_schedule = [bytes "ls"]
      ∧ 0 ∉ bytes "ls"
      ∧ sends_whole idle starved_schedule = true
      ∧ mallocs_give_blocks idle starved_schedule = false
      ∧ (run idle starved_schedule).intake = []
      ∧ (run idle starved_schedule).sent = []
      ∧ (run idle starved_schedule).sent ≠ wire_lines [bytes "ls"]
      ∧ (run idle starved_schedule).status = Status.faulted := by
  decide

/-- C2: for any schedule of prompt passes and bridge passes, if `bs` are the chunks that
the successful `recv` calls delivered, each of at most 2048 bytes, and every `write` to the
log wrote the whole chunk, then the log is what it was before followed by the chunks in
arrival order, byte for byte and with nothing else in between. -/
theorem C2_log_is_the_concatenation_of_the_chunks (s : Process) (es : List Event)
    (bs : List (List Nat)) (hbs : received s es = bs)
    (hlen : ∀ b ∈ bs, b.length ≤ 2048) (hwrite : writes_whole s es = true) :
    (run s es).log = s.log ++ bs.flatten := by
  subst hbs
  exact run_log es s hlen hwrite

/-- What the schedule `three_chunks` does. -/
theorem three_chunks_outcome :
    (run idle three_chunks).log = bytes "OK\nbye"
      ∧ (run idle three_chunks).sent = bytes "status\n" := by
  decide

/-- C2 at the schedule `three_chunks`. -/
theorem C2_three_chunks_witness :
    (run idle three_chunks).log = idle.log ++ [bytes "OK\n", [], bytes "bye"].flatten :=
  C2_log_is_the_concatenation_of_the_chunks idle three_chunks [bytes "OK\n", [], bytes "bye"]
    (by decide) (by decide) (by decide)

/-- C4: the code at the failing input.  With `ls` waiting in the pipe, a pass whose `send`
returns -1 leaves the process running and writes no diagnostic; the command is gone from
the pipe, nothing reached the Connection, and the next pass logs server data as usual. -/
theorem C4_send_error_is_not_noticed :
    (loop_iteration one_queued (command_pass none)).status = Status.running
      ∧ (loop_iteration one_queued (command_pass none)).stderr = []
      ∧ (loop_iteration one_queued (command_pass none)).intake = []
      ∧ (loop_iteration one_queued (command_pass none)).sent = []
      ∧ (run one_queued [Event.wakeup (command_pass none),
            Event.wakeup (server_pass (some (bytes "OK\n")) (some 3))]).log = bytes "OK\n" := by
  decide

theorem err_terminated (s : Process) (d : Diag) : terminated_with (err s 1 d) d := by
  refine ⟨rfl, by simp [err], fun es => run_of_not_running _ es ?_⟩
  simp [err]

theorem loop_iteration_read_error (s : Process) (w : Wakeup) (hrun : s.status = Status.running)
    (hc : command_fd_isset w = true) (hf : w.read_fails = true) :
    loop_iteration s w = err s 1 Diag.read_command := by
  have ha : after_command s w = err s 1 Diag.read_command := by
    simp [after_command, hc, command_reaction, hf]
  unfold loop_iteration
  rw [hrun]
  cases hs : w.select_return with
  | eintr => simp [command_fd_isset, hs] at hc
  | failed => simp [command_fd_isset, hs] at hc
  | ready cf sf =>
    simp only
    rw [ha]
    rfl

/-- C5: from every running state, a pass in which the `read` on the command descriptor
returns -1, one in which `recv` returns a negative value, and one in which the `write` to
the log returns -1 each end with the process terminated with status 1 and the matching
diagnostic, after which no step changes anything.  The log is left as it was in all three
cases, and the failed `read` also leaves the pipe and the bytes sent as they were. -/
theorem C5_bridge_io_failures_are_fatal (s : Process) (w : Wakeup)
    (hrun : s.status = Status.running) :
    (command_fd_isset w = true → w.read_fails = true →
        terminated_with (loop_iteration s w) Diag.read_command
          ∧ (loop_iteration s w).intake = s.intake ∧ (loop_iteration s w).sent = s.sent
          ∧ (loop_iteration s w).log = s.log)
      ∧ (reaches_recv s w = true → w.recv_return = none →
          terminated_with (loop_iteration s w) Diag.recv ∧ (loop_iteration s w).log = s.log)
      ∧ (reaches_recv s w = true → w.recv_return ≠ none → w.write_return = none →
          terminated_with (loop_iteration s w) Diag.write_log
            ∧ (loop_iteration s w).log = s.log) := by
  refine ⟨?_, ?_, ?_⟩
  · intro hc hf
    rw [loop_iteration_read_error s w hrun hc hf]
    exact ⟨err_terminated s _, rfl, rfl, rfl⟩
  · intro hr hn
    rw [loop_iteration_recv s w hr]
    have : server_reaction (after_command s w) w = err (after_command s w) 1 Diag.recv := by
      simp [server_reaction, hn]
    rw [this]
    exact ⟨err_terminated _ _, after_command_log s w⟩
  · intro hr hn hwr
    rw [loop_iteration_recv s w hr]
    cases hrecv : w.recv_return with
    | none => exact absurd hrecv hn
    | some chunk =>
      simp only [server_reaction, hrecv, hwr]
      exact ⟨err_terminated _ _, after_command_log s w⟩

/-- C5 at three failing passes from the state `one_queued`. -/
theorem C5_failures_witness :
    (terminated_with (loop_iteration one_queued read_error_pass) Diag.read_command
        ∧ (loop_iteration one_queued read_error_pass).intake = one_queued.intake
        ∧ (loop_iteration one_queued read_error_pass).sent = one_queued.sent
        ∧ (loop_iteration one_queued read_error_pass).log = one_queued.log)
      ∧ (terminated_with (loop_iteration one_queued (server_pass none none)) Diag.recv
        ∧ (loop_iteration one_queued (server_pass none none)).log = one_queued.log)
      ∧ (terminated_with (loop_iteration one_queued (server_pass (some (bytes "OK\n")) none))
            Diag.write_log
        ∧ (loop_iteration one_queued (server_pass (some (bytes "OK\n")) none)).log
            = one_queued.log) :=
  ⟨(C5_bridge_io_failures_are_fatal one_queued read_error_pass rfl).1 (by decide) rfl,
   (C5_bridge_io_failures_are_fatal one_queued (server_pass none none) rfl).2.1 (by decide) rfl,
   (C5_bridge_io_failures_are_fatal one_queued (server_pass (some (bytes "OK\n")) none) rfl).2.2
      (by decide) (by decide) rfl⟩

/-- C6: from every running state, a pass in which `select` returns -1 with `EINTR` leaves
the whole state as it was (nothing taken from the pipe, nothing sent, nothing logged), the
process stays running, and the pass that follows is an ordinary pass from that same state,
starting with `select` on the same two descriptors. -/
theorem C6_interrupted_select_is_retried (s : Process) (w : Wakeup)
    (hrun : s.status = Status.running) (hintr : w.select_return = Select.eintr) :
    loop_iteration s w = s ∧ (loop_iteration s w).status = Status.running
      ∧ ∀ next : Wakeup,
          run s [Event.wakeup w, Event.wakeup next] = loop_iteration s next := by
  have h : loop_iteration s w = s := by
    unfold loop_iteration
    rw [hrun, hintr]
  refine ⟨h, by rw [h]; exact hrun, fun next => ?_⟩
  rw [run_cons, run_cons, run_nil, step_wakeup, step_wakeup, h]

/-- C6 at the state `one_queued`. -/
theorem C6_interrupted_witness :
    loop_iteration one_queued interrupted_pass = one_queued
      ∧ (loop_iteration one_queued interrupted_pass).status = Status.running
      ∧ ∀ next : Wakeup,
          run one_queued [Event.wakeup interrupted_pass, Event.wakeup next]
            = loop_iteration one_queued next :=
  C6_interrupted_select_is_retried one_queued interrupted_pass rfl rfl

theorem nul_free_short : 0 ∉ bytes "-h" := by decide

theorem nul_free_long : 0 ∉ bytes "--help" := by decide

/-- The test on line 89 succeeds exactly when the argument starts with one of the
two option spellings. -/
theorem help_test_iff (a : List Nat) :
    (strncmp a (bytes "-h") 2 = 0 ∨ strncmp a (bytes "--help") 6 = 0)
      ↔ (bytes "-h" <+: a ∨ bytes "--help" <+: a) := by
  have h1 := strncmp_eq_zero_iff (bytes "-h") a nul_free_short
  have h2 := strncmp_eq_zero_iff (bytes "--help") a nul_free_long
  have l1 : (bytes "-h").length = 2 := by decide
  have l2 : (bytes "--help").length = 6 := by decide
  rw [l1] at h1
  rw [l2] at h2
  rw [h1, h2]

theorem connect_to_server_usage (net : Network) (argc : Nat) (argv : List (List Nat))
    (h : argc < 3 ∨ bytes "-h" <+: argv.getD 1 [] ∨ bytes "--help" <+: argv.getD 1 []) :
    connect_to_server net argc argv = usage := by
  unfold connect_to_server
  by_cases hc : argc < 3
  · simp [hc]
  · have hp := (help_test_iff (argv.getD 1 [])).2 (h.resolve_left hc)
    simp only [hc, if_false, hp, if_true]

theorem connect_to_server_lookup (net : Network) (argc : Nat) (argv : List (List Nat))
    (hc : 3 ≤ argc) (hp : ¬ (bytes "-h" <+: argv.getD 1 [] ∨ bytes "--help" <+: argv.getD 1 [])) :
    (connect_to_server net argc argv).calls.head?
      = some (Call.gethostbyname (cstr (argv.getD 1 []))) := by
  have hc2 : ¬ argc < 3 := by omega
  have hp2 : ¬ (strncmp (argv.getD 1 []) (bytes "-h") 2 = 0
      ∨ strncmp (argv.getD 1 []) (bytes "--help") 6 = 0) :=
    fun e => hp ((help_test_iff (argv.getD 1 [])).1 e)
  simp only [connect_to_server, if_neg hc2, if_neg hp2]
  split
  · rfl
  · split
    · rfl
    · split
      · rfl
      · split <;> rfl

theorem main_start_of_exit (env : Startup) (argc : Nat) (argv : List (List Nat)) (code : Nat)
    (hp : env.pledge_fails = false)
    (h : (connect_to_server env.net argc argv).result = Except.error code) :
    main_start env argc argv = stopped (connect_to_server env.net argc argv) code [] env.log := by
  simp only [main_start, hp, h]
  rfl

/-- C7: when `argc < 3`, or the first argument is `-h` or `--help`, `connect_to_server`
is `usage`: the usage text on standard output, exit status 1, which is not 0, and no call
to the resolver, `socket` or `connect`.  The process then ends with that status without
having sent or logged anything, whatever the schedule. -/
theorem C7_usage_before_any_network_activity (env : Startup) (argc : Nat)
    (argv : List (List Nat))
    (h : argc < 3 ∨ argv.getD 1 [] = bytes "-h" ∨ argv.getD 1 [] = bytes "--help") :
    connect_to_server env.net argc argv = usage
      ∧ usage.stdout = usage_text ∧ usage.calls = [] ∧ usage.result = Except.error 1
      ∧ (1 : Nat) ≠ 0
      ∧ (env.pledge_fails = false → ∀ es : List Event,
          (main env argc argv es).status = Status.exited 1
            ∧ (main env argc argv es).stdout = usage_text
            ∧ (main env argc argv es).calls = []
            ∧ (main env argc argv es).sent = []
            ∧ (main env argc argv es).log = env.log) := by
  have hu : connect_to_server env.net argc argv = usage := by
    apply connect_to_server_usage
    rcases h with h | h | h
    · exact Or.inl h
    · exact Or.inr (Or.inl (by rw [h]))
    · exact Or.inr (Or.inr (by rw [h]))
  refine ⟨hu, rfl, rfl, rfl, by decide, ?_⟩
  intro hp es
  have hs : main_start env argc argv = stopped usage 1 [] env.log := by
    rw [main_start_of_exit env argc argv 1 hp (by rw [hu]; rfl), hu]
  have hr : main env argc argv es = stopped usage 1 [] env.log := by
    unfold main
    rw [hs]
    exact run_of_not_running _ es (by simp [stopped])
  rw [hr]
  exact ⟨rfl, by simp [stopped, usage], rfl, rfl, rfl⟩

/-- C7 at the arguments `simux --help`. -/
theorem C7_usage_witness :
    connect_to_server (smooth_start friendly_net).net 2 [bytes "simux", bytes "--help"] = usage
      ∧ usage.stdout = usage_text ∧ usage.calls = [] ∧ usage.result = Except.error 1
      ∧ (1 : Nat) ≠ 0
      ∧ ((smooth_start friendly_net).pledge_fails = false → ∀ es : List Event,
          (main (smooth_start friendly_net) 2 [bytes "simux", bytes "--help"] es).status
              = Status.exited 1
            ∧ (main (smooth_start friendly_net) 2 [bytes "simux", bytes "--help"] es).stdout
              = usage_text
            ∧ (main (smooth_start friendly_net) 2 [bytes "simux", bytes "--help"] es).calls = []
            ∧ (main (smooth_start friendly_net) 2 [bytes "simux", bytes "--help"] es).sent = []
            ∧ (main (smooth_start friendly_net) 2 [bytes "simux", bytes "--help"] es).log
              = (smooth_start friendly_net).log) :=
  C7_usage_before_any_network_activity (smooth_start friendly_net) 2
    [bytes "simux", bytes "--help"] (Or.inl (by decide))

/-- C10: with `argc >= 3`, `connect_to_server` ends in `usage` exactly when the first
argument starts with `-h` or with `--help`; an argument with neither start is looked up by
the resolver.  So `-host1` and `--helpdesk` with a valid port are answered with the usage
text and exit status 1. -/
theorem C10_help_check_is_a_test_of_the_first_characters (net : Network) (argc : Nat)
    (argv : List (List Nat)) (hargc : 3 ≤ argc) :
    (connect_to_server net argc argv = usage
        ↔ (bytes "-h" <+: argv.getD 1 [] ∨ bytes "--help" <+: argv.getD 1 []))
      ∧ (¬ (bytes "-h" <+: argv.getD 1 [] ∨ bytes "--help" <+: argv.getD 1 []) →
          (connect_to_server net argc argv).calls.head?
            = some (Call.gethostbyname (cstr (argv.getD 1 []))))
      ∧ connect_to_server net 3 [bytes "simux", bytes "-host1", bytes "23"] = usage
      ∧ connect_to_server net 3 [bytes "simux", bytes "--helpdesk", bytes "23"] = usage
      ∧ usage.result = Except.error 1 := by
  refine ⟨⟨?_, fun h => connect_to_server_usage net argc argv (Or.inr h)⟩,
    connect_to_server_lookup net argc argv hargc, ?_, ?_, rfl⟩
  · intro hu
    by_contra hp
    have := connect_to_server_lookup net argc argv hargc hp
    rw [hu] at this
    simp [usage] at this
  · exact connect_to_server_usage net 3 _ (Or.inr (Or.inl (by decide)))
  · exact connect_to_server_usage net 3 _ (Or.inr (Or.inr (by decide)))

/-- C10 at the arguments `simux -host1 23`. -/
theorem C10_witness :
    (connect_to_server friendly_net 3 [bytes "simux", bytes "-host1", bytes "23"] = usage
        ↔ (bytes "-h" <+: [bytes "simux", bytes "-host1", bytes "23"].getD 1 []
            ∨ bytes "--help" <+: [bytes "simux", bytes "-host1", bytes "23"].getD 1 [])) :=
  (C10_help_check_is_a_test_of_the_first_characters friendly_net 3
    [bytes "simux", bytes "-host1", bytes "23"] (by decide)).1

theorem digitChar_toNat (d : Nat) (h : d < 10) : (Nat.digitChar d).toNat = 48 + d := by
  interval_cases d <;> rfl

theorem toDigitsCore_decimal : ∀ (fuel n : Nat) (ds : List Char), n < fuel →
    (Nat.toDigitsCore 10 fuel n ds).map Char.toNat = decimal n ++ ds.map Char.toNat := by
  intro fuel
  induction fuel with
  | zero => intro n ds h; omega
  | succ fuel ih =>
    intro n ds h
    rw [Nat.toDigitsCore, decimal]
    by_cases hn : n < 10
    · have h0 : n / 10 = 0 := by omega
      have hm : n % 10 = n := by omega
      simp [h0, hn, hm, digitChar_toNat n hn]
    · have h0 : ¬ n / 10 = 0 := by omega
      simp only [h0, if_false, hn]
      rw [ih (n / 10) _ (by omega)]
      simp [digitChar_toNat (n % 10) (by omega)]

/-- The numeral `decimal n` is the one Lean itself prints for `n`. -/
theorem decimal_eq_repr (n : Nat) : decimal n = bytes (Nat.repr n) := by
  have := toDigitsCore_decimal (n + 1) n [] (by omega)
  simp only [List.map_nil, List.append_nil] at this
  simp only [bytes, Nat.repr, Nat.toDigits, List.asString]
  exact this.symm

theorem to_unsigned_short_strtol_decimal (p : Nat) (hp : p ≤ 65535) :
    to_unsigned_short (strtol (decimal p)) = p := by
  have hmax : (p : Int) ≤ LONG_MAX := by
    simp only [LONG_MAX]; omega
  rw [strtol_decimal p hmax]
  simp only [to_unsigned_short]
  have : (p : Int) % 2 ^ 16 = (p : Int) := by
    apply Int.emod_eq_of_lt <;> omega
  rw [this]; rfl

theorem format_d_of_nat (p : Nat) : format_d (p : Int) = decimal p := by
  simp [format_d]

theorem connect_to_server_connected (net : Network) (argc : Nat) (argv : List (List Nat))
    (addr fd : Nat) (hc : 3 ≤ argc)
    (hp : ¬ (bytes "-h" <+: argv.getD 1 [] ∨ bytes "--help" <+: argv.getD 1 []))
    (hlookup : net.gethostbyname (cstr (argv.getD 1 [])) = some addr)
    (haddr : addr ≠ INADDR_NONE) (hsocket : net.socket = some fd) :
    connect_to_server net argc argv
      = if net.connect addr (to_unsigned_short (strtol (argv.getD 2 []))) then
          { stdout := bytes "Connected to: " ++ cstr (argv.getD 1 []) ++ bytes ":"
              ++ format_d (to_unsigned_short (strtol (argv.getD 2 [])) : Int) ++ bytes "\n",
            stderr := [],
            calls := [Call.gethostbyname (cstr (argv.getD 1 [])), Call.socket,
              Call.connect addr (to_unsigned_short (strtol (argv.getD 2 [])))],
            result := Except.ok fd }
        else
          { stdout := [], stderr := [Diag.connect],
            calls := [Call.gethostbyname (cstr (argv.getD 1 [])), Call.socket,
              Call.connect addr (to_unsigned_short (strtol (argv.getD 2 [])))],
            result := Except.error 1 } := by
  have hc2 : ¬ argc < 3 := by omega
  have hp2 : ¬ (strncmp (argv.getD 1 []) (bytes "-h") 2 = 0
      ∨ strncmp (argv.getD 1 []) (bytes "--help") 6 = 0) :=
    fun e => hp ((help_test_iff (argv.getD 1 [])).1 e)
  simp only [connect_to_server, if_neg hc2, if_neg hp2, hlookup, if_neg haddr, hsocket]

/-- C9: for a NUL-free host name `h` that passes the help test and the decimal numeral of a
port `p` up to 65535 (the numeral Lean prints for `p`), the port computed from `strtol` and
stored in the `unsigned short` is `p`; when the lookup, `socket` and `connect` succeed, `connect` was called with port `p` and
the line printed is `Connected to: `, `h`, a colon, the numeral of `p` and a newline. -/
theorem C9_port_and_status_line (net : Network) (argc : Nat) (prog h : List Nat)
    (more : List (List Nat)) (p : Nat) (hargc : 3 ≤ argc) (hp : p ≤ 65535) (hnul : 0 ∉ h)
    (hcheck : ¬ (bytes "-h" <+: h ∨ bytes "--help" <+: h)) :
    decimal p = bytes (Nat.repr p)
      ∧ to_unsigned_short (strtol (decimal p)) = p
      ∧ ∀ addr fd : Nat, net.gethostbyname h = some addr → addr ≠ INADDR_NONE →
          net.socket = some fd → net.connect addr p = true →
          (connect_to_server net argc (prog :: h :: decimal p :: more)).result = Except.ok fd
            ∧ (connect_to_server net argc (prog :: h :: decimal p :: more)).calls
                = [Call.gethostbyname h, Call.socket, Call.connect addr p]
            ∧ (connect_to_server net argc (prog :: h :: decimal p :: more)).stdout
                = bytes "Connected to: " ++ h ++ bytes ":" ++ decimal p ++ bytes "\n" := by
  have hport := to_unsigned_short_strtol_decimal p hp
  refine ⟨decimal_eq_repr p, hport, ?_⟩
  intro addr fd hlookup haddr hsocket hconnect
  have h1 : (prog :: h :: decimal p :: more).getD 1 [] = h := rfl
  have h2 : (prog :: h :: decimal p :: more).getD 2 [] = decimal p := rfl
  have hc := cstr_of_nul_free h hnul
  rw [connect_to_server_connected net argc _ addr fd hargc (by rw [h1]; exact hcheck)
    (by rw [h1, hc]; exact hlookup) haddr hsocket]
  simp only [h1, h2, hport, hconnect, if_true, hc, format_d_of_nat]
  exact ⟨trivial, trivial, trivial⟩

/-- C9 at the arguments `simux localhost 8080`. -/
theorem C9_port_witness :
    decimal 8080 = bytes (Nat.repr 8080)
      ∧ to_unsigned_short (strtol (decimal 8080)) = 8080
      ∧ ∀ addr fd : Nat, friendly_net.gethostbyname (bytes "localhost") = some addr →
          addr ≠ INADDR_NONE → friendly_net.socket = some fd →
          friendly_net.connect addr 8080 = true →
          (connect_to_server friendly_net 3
              (bytes "simux" :: bytes "localhost" :: decimal 8080 :: [])).result = Except.ok fd
            ∧ (connect_to_server friendly_net 3
                (bytes "simux" :: bytes "localhost" :: decimal 8080 :: [])).calls
                = [Call.gethostbyname (bytes "localhost"), Call.socket, Call.connect addr 8080]
            ∧ (connect_to_server friendly_net 3
                (bytes "simux" :: bytes "localhost" :: decimal 8080 :: [])).stdout
                = bytes "Connected to: " ++ bytes "localhost" ++ bytes ":" ++ decimal 8080
                    ++ bytes "\n" :=
  C9_port_and_status_line friendly_net 3 (bytes "simux") (bytes "localhost") [] 8080
    (by decide) (by decide) (by decide) (by decide)

theorem decimal_8080 : decimal 8080 = bytes "8080" := by
  simp [decimal, bytes]

theorem decimal_65535 : decimal 65535 = bytes "65535" := by
  simp [decimal, bytes]

theorem decimal_1 : decimal 1 = bytes "1" := by
  simp [decimal, bytes]

/-- C8 (as amended): a failed `pledge` ends the process with status 6, a usage error with
status 1 and a failed `connect` with status 1 as well; end of input at the prompt ends it
with status 0.  The three failure statuses are non-zero and the one for `pledge` differs
from the other two. -/
theorem C8_exit_statuses (env : Startup) (argc : Nat) (argv : List (List Nat)) :
    (env.pledge_fails = true →
        (main_start env argc argv).status = Status.exited 6
          ∧ (main_start env argc argv).stderr = [Diag.pledge])
      ∧ (env.pledge_fails = false → argc < 3 →
          (main_start env argc argv).status = Status.exited 1
            ∧ (main_start env argc argv).stdout = usage_text)
      ∧ (env.pledge_fails = false → (connect_to_server env.net argc argv).stderr = [Diag.connect] →
          (main_start env argc argv).status = Status.exited 1)
      ∧ (∀ (s : Process) (write_fails : Bool), s.status = Status.running →
          (prompt_iteration s none write_fails).status = Status.exited 0)
      ∧ (6 : Nat) ≠ 0 ∧ (1 : Nat) ≠ 0 ∧ (6 : Nat) ≠ 1 := by
  refine ⟨?_, ?_, ?_, ?_, by decide, by decide, by decide⟩
  · intro hp
    simp [main_start, hp, stopped]
  · intro hp hc
    have hu := connect_to_server_usage env.net argc argv (Or.inl hc)
    rw [main_start_of_exit env argc argv 1 hp (by rw [hu]; rfl), hu]
    exact ⟨rfl, by simp [stopped, usage]⟩
  · intro hp hd
    have hres : (connect_to_server env.net argc argv).result = Except.error 1 := by
      revert hd
      unfold connect_to_server
      split
      · simp [usage]
      · split
        · simp [usage]
        · simp only
          split
          · simp
          · split
            · simp
            · split
              · simp
              · split <;> simp
    rw [main_start_of_exit env argc argv 1 hp hres]
    rfl
  · intro s wf hs
    simp [prompt_iteration, hs]

/-- C8 (as amended) at concrete starts. -/
theorem C8_exit_statuses_witness :
    (main_start pledge_denied 3 [bytes "simux", bytes "localhost", bytes "23"]).status
        = Status.exited 6
      ∧ (main_start (smooth_start friendly_net) 1 [bytes "simux"]).status = Status.exited 1
      ∧ (main_start (smooth_start refusing_net) 3
          [bytes "simux", bytes "localhost", bytes "23"]).status = Status.exited 1
      ∧ (prompt_iteration idle none false).status = Status.exited 0 :=
  ⟨((C8_exit_statuses pledge_denied 3 [bytes "simux", bytes "localhost", bytes "23"]).1 rfl).1,
   ((C8_exit_statuses (smooth_start friendly_net) 1 [bytes "simux"]).2.1 rfl (by decide)).1,
   (C8_exit_statuses (smooth_start refusing_net) 3
      [bytes "simux", bytes "localhost", bytes "23"]).2.2.1 rfl (by decide),
   (C8_exit_statuses (smooth_start friendly_net) 0 []).2.2.2.1 idle false rfl⟩

/-- C8 as stated fails: a usage error and a refused connection both end the process with
status 1. -/
theorem C8_usage_and_connect_failure_share_a_status :
    (main_start (smooth_start friendly_net) 1 [bytes "simux"]).status = Status.exited 1
      ∧ (main_start (smooth_start friendly_net) 1 [bytes "simux"]).stdout = usage_text
      ∧ (main_start (smooth_start refusing_net) 3
          [bytes "simux", bytes "localhost", bytes "23"]).status = Status.exited 1
      ∧ (main_start (smooth_start refusing_net) 3
          [bytes "simux", bytes "localhost", bytes "23"]).stderr = [Diag.connect]
      ∧ (main_start (smooth_start refusing_net) 3
          [bytes "simux", bytes "localhost", bytes "23"]).calls
          = [Call.gethostbyname (bytes "localhost"), Call.socket, Call.connect 2130706433 23] := by
  decide

end Simux
